import Mathlib

/-!
Verification of the order/checkout workflow of a small e-commerce
application (`src/app.py`).

Modelling conventions of the shallow embedding:
* SQLite `REAL` prices and totals are modelled as exact rationals `ℚ`
  (all arithmetic the claims exercise is exact in binary floating point).
* Python `int` is modelled as `Int`.
* Python dicts preserve insertion order; they are modelled as
  association lists: updating an existing key edits the entry in place,
  inserting a fresh key appends at the end.
* SQLite tables with `AUTOINCREMENT` keys are modelled as append-only
  lists plus a next-id counter starting at 1; a `SELECT ... WHERE`
  without `ORDER BY` on such a table scans in rowid (insertion) order,
  so it is modelled as `List.filter` / `List.find?`.
* Exceptions are modelled with `Except`.
-/

namespace ECommerce

/-- A product value object (`Product.__init__`). -/
structure Product where
  name : String
  price : ℚ
  category : String
  deriving DecidableEq, Repr

/-- One cart line: the inner dict `{'product': p, 'quantity': q}`
stored in `Cart.items`. -/
structure CartItem where
  product : Product
  quantity : Int
  deriving DecidableEq, Repr

/-- The cart's `items` dict: insertion-ordered mapping from product
name to line. -/
abbrev ItemsList := List (String × CartItem)

/-- `Cart.add_item`: if `product.name` is already a key, add `quantity`
to the existing line in place; otherwise append a fresh line. -/
def add_item (items : ItemsList) (p : Product) (q : Int) : ItemsList :=
  if (items.find? (fun e => e.1 == p.name)).isSome then
    items.map (fun e =>
      if e.1 == p.name then (e.1, { e.2 with quantity := e.2.quantity + q }) else e)
  else
    items ++ [(p.name, ⟨p, q⟩)]

/-- `Cart.remove_item`: delete the line for `product.name` if present,
no-op otherwise. -/
def remove_item (items : ItemsList) (p : Product) : ItemsList :=
  items.filter (fun e => e.1 != p.name)

/-- A single cart mutation (`add_item`, `remove_item` or `clear`). -/
inductive CartOp where
  | add (p : Product) (q : Int)
  | remove (p : Product)
  | clear
  deriving DecidableEq, Repr

/-- Effect of one cart operation on the `items` dict
(`Cart.clear` rebinds `items` to a fresh empty dict). -/
def applyOp (items : ItemsList) : CartOp → ItemsList
  | .add p q => add_item items p q
  | .remove p => remove_item items p
  | .clear => []

/-- Effect of a sequence of cart operations, first operation first. -/
def applyOps (items : ItemsList) (ops : List CartOp) : ItemsList :=
  ops.foldl applyOp items

/-- Errors raised by the services (`ValueError` messages in the source;
`noneDeref` stands for the `TypeError` Python would raise when
subscripting a `None` returned by a fetch). -/
inductive AppError where
  | duplicateUser
  | invalidCredentials
  | emptyCart
  | noneDeref
  deriving DecidableEq, Repr

/-- An `Order` as built by `Order.__init__`: the user and the cart's
`items` dict (by reference; the aliasing is studied via `PayState`). -/
structure Order where
  user_id : Nat
  items : ItemsList
  deriving DecidableEq, Repr

/-- `OrderProcessor.create_order`: raises when the cart dict is falsy
(empty), otherwise builds an `Order` from the live cart dict. -/
def create_order (user_id : Nat) (cart : ItemsList) : Except AppError Order :=
  if cart.isEmpty then .error .emptyCart
  else .ok ⟨user_id, cart⟩

/-- The total `PaymentProcessor.process_order_payment` computes:
`sum(item['product'].price * item['quantity'] for item in order.items.values())`. -/
def orderTotal (items : ItemsList) : ℚ :=
  (items.map (fun e => e.2.product.price * (e.2.quantity : ℚ))).sum

/-- A `users` table row. -/
structure UserRecord where
  id : Nat
  username : String
  password : String
  deriving DecidableEq, Repr

/-- A `products` table row (the surrogate id is never selected). -/
structure ProductRecord where
  name : String
  price : ℚ
  category : String
  deriving DecidableEq, Repr

/-- An `orders` table row. -/
structure OrderRecord where
  order_id : Nat
  user_id : Nat
  total_amount : ℚ
  payment_method : String
  summary : String
  deriving DecidableEq, Repr

/-- The SQLite database: three append-only tables and the
auto-increment counters (SQLite ids start at 1). -/
structure Database where
  products : List ProductRecord
  users : List UserRecord
  orders : List OrderRecord
  nextUserId : Nat
  nextOrderId : Nat
  deriving DecidableEq, Repr

/-- A freshly created database (`create_tables` on a new file). -/
def emptyDb : Database := ⟨[], [], [], 1, 1⟩

/-- `Database.insert_product`: appends a row, no uniqueness check. -/
def insert_product (db : Database) (name : String) (price : ℚ) (category : String) :
    Database :=
  { db with products := db.products ++ [⟨name, price, category⟩] }

/-- `Database.fetch_product_by_name`: `SELECT ... WHERE name = ?` with
`fetchone()` — the first row in rowid (insertion) order. -/
def fetch_product_by_name (db : Database) (name : String) : Option ProductRecord :=
  db.products.find? (fun p => p.name == name)

/-- `Database.insert_user`: appends a row with the next auto id. -/
def insert_user (db : Database) (username password : String) : Database :=
  { db with
      users := db.users ++ [⟨db.nextUserId, username, password⟩],
      nextUserId := db.nextUserId + 1 }

/-- `Database.fetch_user`: first row whose username matches. -/
def fetch_user (db : Database) (username : String) : Option UserRecord :=
  db.users.find? (fun u => u.username == username)

/-- `Database.insert_order`: appends a row with the next auto id. -/
def insert_order (db : Database) (user_id : Nat) (total : ℚ)
    (payment_method summary : String) : Database :=
  { db with
      orders := db.orders ++ [⟨db.nextOrderId, user_id, total, payment_method, summary⟩],
      nextOrderId := db.nextOrderId + 1 }

/-- Row shape returned by `fetch_orders_by_user_id` (its `SELECT`
omits the `user_id` column). -/
structure FetchedOrder where
  order_id : Nat
  total_amount : ℚ
  payment_method : String
  summary : String
  deriving DecidableEq, Repr

/-- Projection of an `orders` row to the selected columns. -/
def projOrder (r : OrderRecord) : FetchedOrder :=
  ⟨r.order_id, r.total_amount, r.payment_method, r.summary⟩

/-- `Database.fetch_orders_by_user_id`: `SELECT ... WHERE user_id = ?`
scanning in rowid (insertion) order. -/
def fetch_orders_by_user_id (db : Database) (uid : Nat) : List FetchedOrder :=
  (db.orders.filter (fun r => r.user_id == uid)).map projOrder

/-- A `User` object as built by `User.__init__` (the cart reference is
the process-wide singleton, modelled separately). -/
structure UserT where
  user_id : Nat
  username : String
  password : String
  deriving DecidableEq, Repr

/-- `AuthService.register_user`: pre-check, insert, re-fetch, build the
`User` from the fetched row. -/
def register_user (db : Database) (username password : String) :
    Except AppError (Database × UserT) :=
  if (fetch_user db username).isSome then .error .duplicateUser
  else
    match fetch_user (insert_user db username password) username with
    | some ud => .ok (insert_user db username password, ⟨ud.id, username, password⟩)
    | none => .error .noneDeref

/-- `Catalog.get_product`: wraps the fetched row into a `Product`. -/
def get_product (db : Database) (name : String) : Option Product :=
  (fetch_product_by_name db name).map (fun r => ⟨r.name, r.price, r.category⟩)

/-- Decimal digits of the fraction `num / den` (with `num < den`),
most significant first, stopping at remainder zero or after `fuel`
digits. -/
def fracDigits (fuel num den : Nat) : List Nat :=
  match fuel, num with
  | 0, _ => []
  | _, 0 => []
  | f + 1, n => (n * 10 / den) :: fracDigits f (n * 10 % den) den

/-- Concatenate decimal digits into a string. -/
def digitsStr (l : List Nat) : String :=
  String.join (l.map (fun d => toString d))

/-- Python `str()` of a float holding an exact short decimal: sign,
integer part, a dot, then the fraction digits (a lone `0` when the
value is integral), e.g. `1200.0`, `30.0`. -/
def pyFloatRepr (q : ℚ) : String :=
  let sign := if q < 0 then "-" else ""
  let n := q.num.natAbs
  let d := q.den
  let frac := fracDigits 17 (n % d) d
  sign ++ toString (n / d) ++ "." ++ (if frac.isEmpty then "0" else digitsStr frac)

/-- Python `f"{x:.2f}"`: fixed two decimal places, ties to even. -/
def pyFormat2f (q : ℚ) : String :=
  let x := q * 100
  let d : Int := (x.den : Int)
  let fl : Int := Int.fdiv x.num d
  let fracNum : Int := x.num - fl * d
  let n : Int :=
    if 2 * fracNum < d then fl
    else if d < 2 * fracNum then fl + 1
    else if fl % 2 = 0 then fl else fl + 1
  let sign := if n < 0 then "-" else ""
  let m := n.natAbs
  sign ++ toString (m / 100) ++ "." ++ (if m % 100 < 10 then "0" else "") ++ toString (m % 100)

/-- One summary line: `f"{quantity}x {name} at ${price} each"`. -/
def renderLine (e : String × CartItem) : String :=
  toString e.2.quantity ++ "x " ++ e.2.product.name ++ " at $" ++
    pyFloatRepr e.2.product.price ++ " each"

/-- The summary string persisted on a successful checkout: the lines
newline-joined, then `"\nTotal Amount: $<total, 2 decimals>"`. -/
def renderSummary (items : ItemsList) (total : ℚ) : String :=
  String.intercalate "\n" (items.map renderLine) ++ "\nTotal Amount: $" ++ pyFormat2f total

/-- The mutable state the checkout route touches: the singleton cart's
dict and the database. -/
structure AppState where
  cart : ItemsList
  db : Database
  deriving DecidableEq, Repr

/-- What a checkout POST that got past `create_order` reports: whether
the gateway approved, and the computed total. -/
structure CheckoutOutcome where
  approved : Bool
  total : ℚ
  deriving DecidableEq, Repr

/-- `MockPaymentGateway.process_payment`: always approves. -/
def mockGateway : ℚ → Bool := fun _ => true

/-- The `/checkout` POST handler for user `uid`, with the payment
gateway abstracted as the capability `gw` (`PaymentGateway` interface).
On approval it clears the cart (`confirm_order`), renders the summary
from the order's lines and inserts the order row; on decline it leaves
all state untouched. -/
def checkout (gw : ℚ → Bool) (uid : Nat) (pm : String) (s : AppState) :
    Except AppError (AppState × CheckoutOutcome) :=
  match create_order uid s.cart with
  | .error e => .error e
  | .ok order =>
      if gw (orderTotal order.items) then
        .ok (⟨[], insert_order s.db uid (orderTotal order.items) pm
              (renderSummary order.items (orderTotal order.items))⟩,
             ⟨true, orderTotal order.items⟩)
      else
        .ok (s, ⟨false, orderTotal order.items⟩)

/-- Heap model of the window between `create_order` and
`process_payment`.  `Cart.get_items` returns `self.items` itself (no
copy), so `Order.items` and `Cart.items` start out as the same dict
object; `add_item` / `remove_item` mutate that dict in place, while
`clear` rebinds the cart's `items` to a fresh dict and leaves the
order's dict alone. -/
structure PayState where
  orderDict : ItemsList
  aliased : Bool
  cartDict : ItemsList
  deriving DecidableEq, Repr

/-- State right after `create_order` on a cart whose dict is `cart`:
the order holds that very dict and the cart still points at it. -/
def mkPayState (cart : ItemsList) : PayState := ⟨cart, true, []⟩

/-- Effect of one cart operation on the heap model. -/
def payApplyOp (s : PayState) : CartOp → PayState
  | .add p q =>
      if s.aliased then { s with orderDict := add_item s.orderDict p q }
      else { s with cartDict := add_item s.cartDict p q }
  | .remove p =>
      if s.aliased then { s with orderDict := remove_item s.orderDict p }
      else { s with cartDict := remove_item s.cartDict p }
  | .clear => { s with aliased := false, cartDict := [] }

/-- Effect of a sequence of cart operations on the heap model. -/
def payApplyOps (s : PayState) (ops : List CartOp) : PayState :=
  ops.foldl payApplyOp s

/-- The total `process_order_payment` would compute in heap state `s`:
it reads the order's dict. -/
def payTotal (s : PayState) : ℚ := orderTotal s.orderDict

/-- The seed catalog inserted on first startup. -/
def seedProducts : List (String × ℚ × String) :=
  [("Laptop", 1200, "Electronics"), ("Smartphone", 800, "Electronics"),
   ("Tablet", 500, "Electronics"), ("Refrigerator", 1500, "Home Appliances"),
   ("Microwave", 200, "Home Appliances"), ("Washing Machine", 1000, "Home Appliances"),
   ("The Hobbit", 40, "Books"), ("Train to Pakistan", 35, "Books"),
   ("Harry Potter and the Deathly Hallows", 55, "Books"),
   ("Shirt", 30, "Clothing"), ("Jeans", 50, "Clothing"), ("Jacket", 100, "Clothing")]

/-- The database after startup seeding. -/
def seedDb : Database :=
  seedProducts.foldl (fun db r => insert_product db r.1 r.2.1 r.2.2) emptyDb

/-- Whether a cart operation respects the documented precondition that
`add_item` quantities are positive. -/
def opQtyPosB : CartOp → Bool
  | .add _ q => decide (0 < q)
  | .remove _ => true
  | .clear => true

/-- Sample products used in concrete witnesses. -/
def pA : Product := ⟨"A", 1, "X"⟩

/-- A second sample product with a different name. -/
def pB : Product := ⟨"B", 2, "Y"⟩

/-- A gateway that always declines, for exercising the failure path. -/
def declineGateway : ℚ → Bool := fun _ => false

/-- A concrete one-line cart used in checkout witnesses. -/
def exCart : ItemsList := [("A", CartItem.mk pA 2)]

/-- A concrete pre-checkout state over the empty database. -/
def exS : AppState := ⟨exCart, emptyDb⟩

/-- The total of `exCart`. -/
def exTotal : ℚ := orderTotal exCart

/-- The state after a successful checkout from `exS`. -/
def exS4 : AppState :=
  ⟨[], insert_order emptyDb 1 exTotal "card" (renderSummary exCart exTotal)⟩

/-- A database holding the single user `bob`. -/
def bobDb : Database := insert_user emptyDb "bob" "pwb"

/-- A database with two products of the same name, inserted in order. -/
def dupDb : Database :=
  insert_product (insert_product emptyDb "Dup" 1 "X") "Dup" 2 "Y"

/-- Inserting a list of order rows (user id, total, method, summary)
one after the other. -/
def insertOrders (db : Database) (l : List (Nat × ℚ × String × String)) : Database :=
  l.foldl (fun d r => insert_order d r.1 r.2.1 r.2.2.1 r.2.2.2) db

/-- Spec-side description for C9, following the spec's words: the
records of user `uid` among the inserted rows, in insertion order
(oldest first), with ids assigned sequentially from `i`. -/
def expectedFetch (i uid : Nat) : List (Nat × ℚ × String × String) → List FetchedOrder
  | [] => []
  | r :: rest =>
      (if r.1 = uid then [⟨i, r.2.1, r.2.2.1, r.2.2.2⟩] else []) ++
        expectedFetch (i + 1) uid rest

/-- The seeded Laptop product. -/
def laptopP : Product := ⟨"Laptop", 1200, "Electronics"⟩

/-- The seeded Shirt product. -/
def shirtP : Product := ⟨"Shirt", 30, "Clothing"⟩

/-- The database after seeding and registering alice. -/
def aliceDb : Database := insert_user seedDb "alice" "pw1"

/-- The cart after adding 2 Laptops then 1 Shirt. -/
def scenarioCart : ItemsList := add_item (add_item [] laptopP 2) shirtP 1

/-- The summary string the scenario checkout persists. -/
def scenarioSummary : String :=
  "2x Laptop at $1200.0 each\n1x Shirt at $30.0 each\nTotal Amount: $2430.00"

/-! ## Helper lemmas about the cart dict -/

theorem add_item_of_not_mem (items : ItemsList) (p : Product) (q : Int)
    (h : ∀ e ∈ items, e.1 ≠ p.name) :
    add_item items p q = items ++ [(p.name, ⟨p, q⟩)] := by
  have hfind : items.find? (fun e => e.1 == p.name) = none := by
    rw [List.find?_eq_none]
    intro x hx
    simpa using h x hx
  simp [add_item, hfind]

theorem add_item_last (c : ItemsList) (n : String) (it : CartItem) (p : Product)
    (q : Int) (hp : p.name = n) (hc : ∀ e ∈ c, e.1 ≠ n) :
    add_item (c ++ [(n, it)]) p q =
      c ++ [(n, { it with quantity := it.quantity + q })] := by
  have hfind : (((c ++ [(n, it)]).find? (fun e => e.1 == p.name)).isSome) = true := by
    rw [List.find?_isSome]
    exact ⟨(n, it), by simp, by simp [hp]⟩
  unfold add_item
  rw [if_pos hfind, List.map_append]
  congr 1
  · have hid : List.map (fun e : String × CartItem =>
        if (e.1 == p.name) = true then
          (e.1, { e.2 with quantity := e.2.quantity + q }) else e) c = List.map id c := by
      apply List.map_congr_left
      intro e he
      have : e.1 ≠ p.name := by rw [hp]; exact hc e he
      simp [this]
    rw [hid, List.map_id]
  · simp [hp]

theorem quantity_pos_applyOp (items : ItemsList) (op : CartOp)
    (h : ∀ e ∈ items, 0 < e.2.quantity) (hop : opQtyPosB op = true) :
    ∀ e ∈ applyOp items op, 0 < e.2.quantity := by
  cases op with
  | add p q =>
      have hq : 0 < q := by simpa [opQtyPosB] using hop
      intro e he
      simp only [applyOp, add_item] at he
      split at he
      · obtain ⟨a, ha, hae⟩ := List.mem_map.1 he
        by_cases hk : (a.1 == p.name) = true
        · rw [if_pos hk] at hae
          subst hae
          exact add_pos (h a ha) hq
        · rw [if_neg hk] at hae
          subst hae
          exact h a ha
      · rcases List.mem_append.1 he with h1 | h2
        · exact h e h1
        · simp only [List.mem_singleton] at h2
          subst h2
          exact hq
  | remove p =>
      intro e he
      exact h e (List.mem_filter.1 he).1
  | clear =>
      intro e he
      simp [applyOp] at he

theorem quantity_pos_applyOps (ops : List CartOp) :
    ∀ items : ItemsList, (∀ e ∈ items, 0 < e.2.quantity) →
      (∀ op ∈ ops, opQtyPosB op = true) →
      ∀ e ∈ applyOps items ops, 0 < e.2.quantity := by
  induction ops with
  | nil => intro items h _ e he; exact h e he
  | cons op rest ih =>
      intro items h hops e he
      have hstep := quantity_pos_applyOp items op h (hops op (by simp))
      exact ih (applyOp items op) hstep (fun o ho => hops o (by simp [ho])) e he

/-- C2: after any sequence of cart operations starting from the empty
cart, with every `add_item` quantity positive (the documented
precondition), every line remaining in the cart has a strictly positive
quantity. -/
theorem cart_lines_positive (ops : List CartOp)
    (hops : ∀ op ∈ ops, opQtyPosB op = true) :
    ∀ e ∈ applyOps [] ops, 0 < e.2.quantity :=
  quantity_pos_applyOps ops [] (by simp) hops

/-- Witness for C2 at the concrete sequence add(A,2); add(A,3). -/
theorem cart_lines_positive_witness : (0 : Int) < (CartItem.mk pA 5).quantity :=
  cart_lines_positive [CartOp.add pA 2, CartOp.add pA 3] (by decide)
    ("A", CartItem.mk pA 5) (by decide)

theorem applyOps_add_same (n : String) (c : ItemsList)
    (l : List (Product × Int)) :
    ∀ (p₀ : Product) (q₀ : Int), p₀.name = n → (∀ e ∈ l, e.1.name = n) →
      (∀ e ∈ c, e.1 ≠ n) →
      applyOps (c ++ [(n, ⟨p₀, q₀⟩)]) (l.map (fun e => CartOp.add e.1 e.2)) =
        c ++ [(n, ⟨p₀, q₀ + (l.map (fun e => e.2)).sum⟩)] := by
  induction l with
  | nil => intro p₀ q₀ _ _ _; simp [applyOps]
  | cons hd rest ih =>
      intro p₀ q₀ hp₀ hl hc
      have hhd : hd.1.name = n := hl hd (by simp)
      have hstep : applyOp (c ++ [(n, ⟨p₀, q₀⟩)]) (CartOp.add hd.1 hd.2) =
          c ++ [(n, ⟨p₀, q₀ + hd.2⟩)] := by
        simpa [applyOp] using add_item_last c n ⟨p₀, q₀⟩ hd.1 hd.2 hhd hc
      calc applyOps (c ++ [(n, ⟨p₀, q₀⟩)]) ((hd :: rest).map (fun e => CartOp.add e.1 e.2))
          = applyOps (c ++ [(n, ⟨p₀, q₀ + hd.2⟩)]) (rest.map (fun e => CartOp.add e.1 e.2)) := by
            simp only [List.map_cons, applyOps, List.foldl_cons, hstep]
        _ = c ++ [(n, ⟨p₀, (q₀ + hd.2) + (rest.map (fun e => e.2)).sum⟩)] :=
            ih p₀ (q₀ + hd.2) hp₀ (fun e he => hl e (by simp [he])) hc
        _ = c ++ [(n, ⟨p₀, q₀ + ((hd :: rest).map (fun e => e.2)).sum⟩)] := by
            simp [add_assoc]

/-- C6: a nonempty sequence of `add_item` calls, all for products named
`n`, performed on a cart with no line named `n`, leaves exactly one
line named `n`, whose quantity is the sum of all quantities passed. -/
theorem add_item_same_product (c : ItemsList) (n : String) (p : Product)
    (q : Int) (l : List (Product × Int)) (hp : p.name = n)
    (hl : ∀ e ∈ l, e.1.name = n) (hc : ∀ e ∈ c, e.1 ≠ n) :
    applyOps c (((p, q) :: l).map (fun e => CartOp.add e.1 e.2)) =
      c ++ [(n, ⟨p, (((p, q) :: l).map (fun e => e.2)).sum⟩)] ∧
    ((applyOps c (((p, q) :: l).map (fun e => CartOp.add e.1 e.2))).filter
        (fun e => e.1 == n)).length = 1 := by
  have hfirst : applyOp c (CartOp.add p q) = c ++ [(n, ⟨p, q⟩)] := by
    have := add_item_of_not_mem c p q (fun e he => by rw [hp]; exact hc e he)
    simpa [applyOp, hp] using this
  have hmain : applyOps c (((p, q) :: l).map (fun e => CartOp.add e.1 e.2)) =
      c ++ [(n, ⟨p, q + (l.map (fun e => e.2)).sum⟩)] := by
    calc applyOps c (((p, q) :: l).map (fun e => CartOp.add e.1 e.2))
        = applyOps (c ++ [(n, ⟨p, q⟩)]) (l.map (fun e => CartOp.add e.1 e.2)) := by
          simp only [List.map_cons, applyOps, List.foldl_cons, hfirst]
      _ = c ++ [(n, ⟨p, q + (l.map (fun e => e.2)).sum⟩)] :=
          applyOps_add_same n c l p q hp hl hc
  constructor
  · simpa using hmain
  · rw [hmain, List.filter_append]
    have hcnil : c.filter (fun e => e.1 == n) = [] := by
      rw [List.filter_eq_nil_iff]
      intro e he
      simpa using hc e he
    simp [hcnil]

/-- Witness for C6 at the concrete sequence add(A,2); add(A,3) on the
empty cart. -/
theorem add_item_same_product_witness :
    applyOps [] ([((pA, 2) : Product × Int), (pA, 3)].map (fun e => CartOp.add e.1 e.2)) =
      [] ++ [("A", ⟨pA, ([((pA, 2) : Product × Int), (pA, 3)].map (fun e => e.2)).sum⟩)] ∧
    ((applyOps [] ([((pA, 2) : Product × Int), (pA, 3)].map (fun e => CartOp.add e.1 e.2))).filter
        (fun e => e.1 == "A")).length = 1 :=
  add_item_same_product [] "A" pA 2 [(pA, 3)] rfl (by simp [pA]) (by simp)

/-- C3: `create_order` fails with `EmptyCartError` exactly on the empty
cart; on a non-empty cart it succeeds and the order's lines are the
cart's lines at call time. -/
theorem create_order_spec (uid : Nat) (cart : ItemsList) :
    (cart = [] → create_order uid cart = .error .emptyCart) ∧
    (cart ≠ [] → create_order uid cart = .ok ⟨uid, cart⟩) := by
  constructor
  · rintro rfl; rfl
  · intro h
    have : cart.isEmpty = false := by
      cases cart with
      | nil => exact absurd rfl h
      | cons a l => rfl
    simp [create_order, this]

/-- Witness for C3 on the empty cart and on a one-line cart. -/
theorem create_order_spec_witness :
    create_order 1 [] = .error .emptyCart ∧
      create_order 1 [("A", ⟨pA, 2⟩)] = .ok ⟨1, [("A", ⟨pA, 2⟩)]⟩ :=
  ⟨(create_order_spec 1 []).1 rfl,
   (create_order_spec 1 [("A", ⟨pA, 2⟩)]).2 (by simp)⟩

/-! ## The aliasing between Order.items and Cart.items (C1) -/

theorem payApplyOps_clear_orderDict (ops : List CartOp) :
    ∀ s : PayState, (∀ op ∈ ops, op = CartOp.clear) →
      (payApplyOps s ops).orderDict = s.orderDict := by
  induction ops with
  | nil => intro s _; rfl
  | cons op rest ih =>
      intro s h
      have hop : op = CartOp.clear := h op (by simp)
      subst hop
      have hstep : payApplyOps s (CartOp.clear :: rest) =
          payApplyOps (payApplyOp s CartOp.clear) rest := rfl
      rw [hstep, ih (payApplyOp s CartOp.clear) (fun o ho => h o (by simp [ho]))]
      rfl

theorem orderTotal_append (l₁ l₂ : ItemsList) :
    orderTotal (l₁ ++ l₂) = orderTotal l₁ + orderTotal l₂ := by
  simp [orderTotal]

/-- C1 fails as stated: with a one-line cart (price 1, quantity 1), an
`add_item` performed between `create_order` and `process_payment`
changes the computed total (2 instead of the snapshot total 1),
because the Order holds the cart's live dict, not a copy. -/
theorem payment_total_mutation_counterexample :
    payTotal (payApplyOps (mkPayState [("A", CartItem.mk pA 1)]) [CartOp.add pA 1]) ≠
      orderTotal [("A", CartItem.mk pA 1)] := by
  have hdict : payApplyOps (mkPayState [("A", CartItem.mk pA 1)]) [CartOp.add pA 1] =
      ⟨[("A", CartItem.mk pA 2)], true, []⟩ := rfl
  rw [hdict]
  show orderTotal [("A", CartItem.mk pA 2)] ≠ orderTotal [("A", CartItem.mk pA 1)]
  norm_num [orderTotal, pA]

/-- C1 amended: the total computed by `process_payment` equals
Σ price×quantity over the Order's lines as they are at the moment
`process_payment` runs.  It equals the `create_order` snapshot total
when only `clear` (or nothing) intervened, but an intervening
`add_item` of a product not yet in the cart raises the total by
price×quantity, since `Order.items` aliases the live cart dict. -/
theorem process_payment_total_amended (c : ItemsList) (ops : List CartOp)
    (p : Product) (q : Int)
    (hclear : ∀ op ∈ ops, op = CartOp.clear)
    (hp : ∀ e ∈ c, e.1 ≠ p.name) :
    payTotal (payApplyOps (mkPayState c) ops) = orderTotal c ∧
    payTotal (payApplyOp (mkPayState c) (CartOp.add p q)) =
      orderTotal c + p.price * q := by
  constructor
  · rw [payTotal, payApplyOps_clear_orderDict ops (mkPayState c) hclear]
    rfl
  · have hadd : payApplyOp (mkPayState c) (CartOp.add p q) =
        { mkPayState c with orderDict := add_item c p q } := rfl
    rw [payTotal, hadd]
    show orderTotal (add_item c p q) = _
    rw [add_item_of_not_mem c p q hp, orderTotal_append]
    simp [orderTotal]

/-- Witness for the amended C1 at a one-line cart, a `clear` in the
window, and an `add_item` of a fresh product. -/
theorem process_payment_total_amended_witness :
    payTotal (payApplyOps (mkPayState [("A", CartItem.mk pA 1)]) [CartOp.clear]) =
        orderTotal [("A", CartItem.mk pA 1)] ∧
      payTotal (payApplyOp (mkPayState [("A", CartItem.mk pA 1)]) (CartOp.add pB 2)) =
        orderTotal [("A", CartItem.mk pA 1)] + pB.price * 2 :=
  process_payment_total_amended [("A", CartItem.mk pA 1)] [CartOp.clear] pB 2
    (by decide) (by decide)

/-! ## Checkout (C4, C5) -/

/-- C4: any checkout run in which the gateway approved leaves the cart
empty and appends exactly one order record, carrying the computed
total and the rendered summary of the snapshot lines. -/
theorem checkout_success (gw : ℚ → Bool) (uid : Nat) (pm : String)
    (s s' : AppState) (out : CheckoutOutcome)
    (h : checkout gw uid pm s = .ok (s', out)) (ha : out.approved = true) :
    s'.cart = [] ∧
      s'.db.orders = s.db.orders ++
        [⟨s.db.nextOrderId, uid, out.total, pm, renderSummary s.cart out.total⟩] := by
  unfold checkout at h
  split at h
  · simp at h
  · rename_i order hco
    have horder : order = ⟨uid, s.cart⟩ := by
      unfold create_order at hco
      split at hco
      · simp at hco
      · exact (Except.ok.inj hco).symm
    subst horder
    split at h
    · simp only [Except.ok.injEq, Prod.mk.injEq] at h
      obtain ⟨hs', hout⟩ := h
      subst hs'
      subst hout
      exact ⟨rfl, by simp [insert_order]⟩
    · simp only [Except.ok.injEq, Prod.mk.injEq] at h
      obtain ⟨hs', hout⟩ := h
      rw [← hout] at ha
      simp at ha

/-- Witness for C4: the mock (always-approve) gateway on a one-line
cart over the empty database. -/
theorem checkout_success_witness :
    exS4.cart = [] ∧
      exS4.db.orders = exS.db.orders ++
        [⟨exS.db.nextOrderId, 1, exTotal, "card", renderSummary exS.cart exTotal⟩] :=
  checkout_success mockGateway 1 "card" exS exS4 ⟨true, exTotal⟩ rfl rfl

/-- C5: any checkout run in which the gateway declined leaves the
whole state (cart and database) exactly as it was. -/
theorem checkout_declined (gw : ℚ → Bool) (uid : Nat) (pm : String)
    (s s' : AppState) (out : CheckoutOutcome)
    (h : checkout gw uid pm s = .ok (s', out)) (hd : out.approved = false) :
    s' = s := by
  unfold checkout at h
  split at h
  · simp at h
  · split at h
    · simp only [Except.ok.injEq, Prod.mk.injEq] at h
      obtain ⟨hs', hout⟩ := h
      rw [← hout] at hd
      simp at hd
    · simp only [Except.ok.injEq, Prod.mk.injEq] at h
      exact h.1.symm

/-- Witness for C5: an always-decline gateway on a one-line cart. -/
theorem checkout_declined_witness : exS = exS :=
  checkout_declined declineGateway 1 "card" exS exS ⟨false, exTotal⟩ rfl rfl

/-! ## Registration (C8) -/

/-- C8: `register_user` fails with the duplicate-user error exactly
when a user with that username is already stored; otherwise it returns
the freshly inserted user, and the store then holds exactly one user
with that username. -/
theorem register_user_spec (db : Database) (u pw : String) :
    (register_user db u pw = .error .duplicateUser ↔ ∃ r ∈ db.users, r.username = u) ∧
    ((∀ r ∈ db.users, r.username ≠ u) →
      register_user db u pw = .ok (insert_user db u pw, ⟨db.nextUserId, u, pw⟩) ∧
      ((insert_user db u pw).users.filter (fun r => r.username == u)).length = 1) := by
  have hiff : (fetch_user db u).isSome = true ↔ ∃ r ∈ db.users, r.username = u := by
    rw [fetch_user, List.find?_isSome]
    constructor
    · rintro ⟨x, hx, hpx⟩; exact ⟨x, hx, by simpa using hpx⟩
    · rintro ⟨x, hx, hpx⟩; exact ⟨x, hx, by simpa using hpx⟩
  by_cases hsome : (fetch_user db u).isSome = true
  · have hreg : register_user db u pw = .error .duplicateUser := by
      rw [register_user, if_pos hsome]
    constructor
    · exact ⟨fun _ => hiff.1 hsome, fun _ => hreg⟩
    · intro hnone
      obtain ⟨r, hr, hru⟩ := hiff.1 hsome
      exact absurd hru (hnone r hr)
  · have hnone : fetch_user db u = none := by
      cases hfu : fetch_user db u with
      | none => rfl
      | some v => rw [hfu] at hsome; simp at hsome
    have hforall : ∀ r ∈ db.users, ¬(r.username == u) = true :=
      List.find?_eq_none.mp hnone
    have hfetch' : fetch_user (insert_user db u pw) u = some ⟨db.nextUserId, u, pw⟩ := by
      show (db.users ++ [(⟨db.nextUserId, u, pw⟩ : UserRecord)]).find?
          (fun r : UserRecord => r.username == u) = _
      rw [List.find?_append]
      rw [show db.users.find? (fun r : UserRecord => r.username == u) = none from hnone]
      simp
    have hreg : register_user db u pw =
        .ok (insert_user db u pw, ⟨db.nextUserId, u, pw⟩) := by
      rw [register_user, if_neg hsome, hfetch']
    constructor
    · constructor
      · intro h; rw [hreg] at h; exact absurd h (by simp)
      · rintro ⟨r, hr, hru⟩
        exact absurd (by simp [hru]) (hforall r hr)
    · intro _
      refine ⟨hreg, ?_⟩
      show ((db.users ++ [(⟨db.nextUserId, u, pw⟩ : UserRecord)]).filter
          (fun r : UserRecord => r.username == u)).length = 1
      rw [List.filter_append, List.filter_eq_nil_iff.mpr hforall]
      simp

/-- Witness for C8: registering `alice` on a store holding only `bob`. -/
theorem register_user_spec_witness :
    register_user bobDb "alice" "pw1" =
        .ok (insert_user bobDb "alice" "pw1", ⟨bobDb.nextUserId, "alice", "pw1"⟩) ∧
      ((insert_user bobDb "alice" "pw1").users.filter
          (fun r => r.username == "alice")).length = 1 :=
  (register_user_spec bobDb "alice" "pw1").2 (by decide)

/-! ## Order history (C9) -/

theorem fetch_orders_insert (db : Database) (uid user_id : Nat) (tot : ℚ)
    (pm sm : String) :
    fetch_orders_by_user_id (insert_order db user_id tot pm sm) uid =
      fetch_orders_by_user_id db uid ++
        (if user_id = uid then [⟨db.nextOrderId, tot, pm, sm⟩] else []) := by
  simp only [fetch_orders_by_user_id, insert_order, List.filter_append, List.map_append]
  congr 1
  by_cases h : user_id = uid
  · simp [h, projOrder]
  · simp [h]

/-- C9: fetching a user's order records after any sequence of inserts
returns exactly that user's rows, in insertion order with the oldest
first (ids assigned sequentially). -/
theorem fetch_orders_insertion_order (uid : Nat)
    (l : List (Nat × ℚ × String × String)) :
    ∀ db : Database, fetch_orders_by_user_id (insertOrders db l) uid =
      fetch_orders_by_user_id db uid ++ expectedFetch db.nextOrderId uid l := by
  induction l with
  | nil => intro db; simp [insertOrders, expectedFetch]
  | cons r rest ih =>
      intro db
      have hstep : insertOrders db (r :: rest) =
          insertOrders (insert_order db r.1 r.2.1 r.2.2.1 r.2.2.2) rest := rfl
      rw [hstep, ih (insert_order db r.1 r.2.1 r.2.2.1 r.2.2.2)]
      rw [fetch_orders_insert]
      have hnext : (insert_order db r.1 r.2.1 r.2.2.1 r.2.2.2).nextOrderId =
          db.nextOrderId + 1 := rfl
      rw [hnext, List.append_assoc]
      rfl

/-! ## Product lookup among duplicates (C10) -/

/-- C10: with duplicate names present, `fetch_product_by_name` returns
the first (earliest-inserted) matching row; `insert_product` appends,
so list position is insertion order. -/
theorem fetch_product_first_match (db : Database) (n : String)
    (l₁ l₂ : List ProductRecord) (p : ProductRecord)
    (nm : String) (pr : ℚ) (cat : String)
    (hdb : db.products = l₁ ++ p :: l₂) (hp : p.name = n)
    (h1 : ∀ q ∈ l₁, q.name ≠ n) :
    fetch_product_by_name db n = some p ∧
    (insert_product db nm pr cat).products = db.products ++ [⟨nm, pr, cat⟩] := by
  refine ⟨?_, rfl⟩
  simp only [fetch_product_by_name, hdb]
  rw [List.find?_append]
  rw [List.find?_eq_none.mpr (fun x hx => by simpa using h1 x hx)]
  simp [List.find?_cons_of_pos, hp]

/-- Witness for C10: two products both named `Dup`; lookup returns the
first inserted one. -/
theorem fetch_product_first_match_witness :
    fetch_product_by_name dupDb "Dup" = some ⟨"Dup", 1, "X"⟩ ∧
      (insert_product dupDb "Jeans" 50 "Clothing").products =
        dupDb.products ++ [⟨"Jeans", 50, "Clothing"⟩] :=
  fetch_product_first_match dupDb "Dup" [] [⟨"Dup", 2, "Y"⟩] ⟨"Dup", 1, "X"⟩
    "Jeans" 50 "Clothing" rfl rfl (by simp)

/-! ## The end-to-end scenario (C7) -/

/-- C7: the spec's scenario.  Registering alice, adding 2 Laptops and
1 Shirt (both taken from the seeded catalog) and checking out with
`card` succeeds with total 2430.00, persists one record whose summary
is exactly the rendered lines plus the 2-decimal total line, and
leaves the cart empty.  The final conjunct splits the summary so both
required substrings appear literally. -/
theorem checkout_scenario :
    register_user seedDb "alice" "pw1" = .ok (aliceDb, ⟨1, "alice", "pw1"⟩) ∧
    get_product seedDb "Laptop" = some laptopP ∧
    get_product seedDb "Shirt" = some shirtP ∧
    checkout mockGateway 1 "card" ⟨scenarioCart, aliceDb⟩ =
      .ok (⟨[], insert_order aliceDb 1 2430 "card" scenarioSummary⟩, ⟨true, 2430⟩) ∧
    scenarioSummary =
      "2x Laptop at $1200.0 each" ++ ("\n1x Shirt at $30.0 each\n" ++ "Total Amount: $2430.00") := by
  refine ⟨rfl, rfl, rfl, ?_, rfl⟩
  have hcart : scenarioCart = [("Laptop", ⟨laptopP, 2⟩), ("Shirt", ⟨shirtP, 1⟩)] := rfl
  have htotal : orderTotal scenarioCart = 2430 := by
    rw [hcart]
    norm_num [orderTotal, laptopP, shirtP]
  have h1200 : pyFloatRepr 1200 = "1200.0" := by
    have hn : (1200 : ℚ).num = 1200 := by norm_num
    have hd : (1200 : ℚ).den = 1 := by norm_num
    have hneg : ¬((1200 : ℚ) < 0) := by norm_num
    simp only [pyFloatRepr, hn, hd, if_neg hneg]
    decide
  have h30 : pyFloatRepr 30 = "30.0" := by
    have hn : (30 : ℚ).num = 30 := by norm_num
    have hd : (30 : ℚ).den = 1 := by norm_num
    have hneg : ¬((30 : ℚ) < 0) := by norm_num
    simp only [pyFloatRepr, hn, hd, if_neg hneg]
    decide
  have hfmt : pyFormat2f 2430 = "2430.00" := by
    have h : (2430 : ℚ) * 100 = 243000 := by norm_num
    have hn : (243000 : ℚ).num = 243000 := by norm_num
    have hd : (243000 : ℚ).den = 1 := by norm_num
    simp only [pyFormat2f, h, hn, hd]
    decide
  have hsum : renderSummary scenarioCart 2430 = scenarioSummary := by
    rw [hcart]
    simp only [renderSummary, List.map_cons, List.map_nil, renderLine, laptopP, shirtP]
    rw [h1200, h30, hfmt]
    rfl
  calc checkout mockGateway 1 "card" ⟨scenarioCart, aliceDb⟩
      = .ok (⟨[], insert_order aliceDb 1 (orderTotal scenarioCart) "card"
            (renderSummary scenarioCart (orderTotal scenarioCart))⟩,
          ⟨true, orderTotal scenarioCart⟩) := rfl
    _ = .ok (⟨[], insert_order aliceDb 1 2430 "card" scenarioSummary⟩, ⟨true, 2430⟩) := by
        rw [htotal, hsum]

end ECommerce
